import Mathlib

/-!
Shallow embedding of the JECS parser library (parser.rs, types.rs, errors.rs).

Text is represented as `List Char`; the `String` payloads of the Rust tree
are `List Char` as well, while diagnostic messages are Lean `String`s.
Rust panics (an `unwrap` of `None`, an "impossible" branch) are modelled by
`RunResult.panicked` for the typed accessors, and inside the parser by an
error carrying the description `panicMsg` on branches that are unreachable
for the states the parser actually constructs (fuel exhaustion of the
explicit work-list loops is likewise unreachable for the adequate fuel the
entry point passes).
-/

/-- Rust `JecsCorruptedDataError` (errors.rs). -/
structure JecsCorruptedDataError where
  row : Nat
  description : String
deriving DecidableEq

/-- Rust `JecsWrongEntryTypeError` (errors.rs). -/
structure JecsWrongEntryTypeError where
  expected_type : String
  encountered_type : String
deriving DecidableEq

/-- Rust `Box<dyn JecsTreeError>` (errors.rs): one of the two tree error kinds. -/
inductive JecsTreeError where
  | wrongEntryType (expected_type encountered_type : String)
  | incompatibleOrMalformed (data_type : String) (value : List Char)
deriving DecidableEq

/-- Outcome of a Rust call that may panic besides returning its `Result`. -/
inductive RunResult (ε α : Type) where
  | panicked
  | error (e : ε)
  | ok (a : α)
deriving DecidableEq

/-- Description used for modelled Rust panics / unreachable branches. -/
def panicMsg : String := "PANIC: unreachable in the Rust source"

/-- Rust `JecsType` (types.rs); `HashMap` is modelled as an insertion-ordered
association list and `Vec` as a list. -/
inductive JecsType where
  | any
  | value (text : List Char)
  | map (entries : List (List Char × JecsType))
  | list (entries : List JecsType)

/-- Rust `HashMap::insert`: replace the value of an existing key, otherwise
add the new binding (the hash order itself is unobservable; the list keeps
insertion order). -/
def insertAssoc (m : List (List Char × JecsType)) (k : List Char) (v : JecsType) :
    List (List Char × JecsType) :=
  match m with
  | [] => [(k, v)]
  | (k2, v2) :: rest => if k2 = k then (k, v) :: rest else (k2, v2) :: insertAssoc rest k v

/-- Abbreviation for string literals used as character lists. -/
def str (s : String) : List Char := s.data

/-- Rust `str::trim_end_matches(|c| c == ' ')`. -/
def trimEndSpaces (cs : List Char) : List Char :=
  (cs.reverse.dropWhile fun c => c = ' ').reverse

/-- Rust `str::lines` helper: split at every newline character; every piece
except the last was terminated by a newline. -/
def splitNl : List Char → List (List Char)
  | [] => [[]]
  | c :: rest =>
    if c = '\n' then [] :: splitNl rest
    else
      match splitNl rest with
      | [] => [[c]]
      | l :: ls => (c :: l) :: ls

/-- Rust `str::lines` helper: strip one carriage return that preceded the
newline terminator of a piece. -/
def stripCr (l : List Char) : List Char :=
  match l.reverse with
  | '\r' :: rest => rest.reverse
  | _ => l

/-- Rust `str::lines` helper: the last piece was not newline-terminated, so
it keeps a trailing carriage return and is dropped when empty. -/
def rustLinesAux : List (List Char) → List (List Char)
  | [] => []
  | [p] => if p = [] then [] else [p]
  | p :: ps => stripCr p :: rustLinesAux ps

/-- Rust `str::lines` (as used by `parse_jecs_string`). -/
def rustLines (text : List Char) : List (List Char) := rustLinesAux (splitNl text)

/-- `enumerate().map(|(index, line)| (index + 1, line))`: 1-based row numbers. -/
def numberLines (i : Nat) : List (List Char) → List (Nat × List Char)
  | [] => []
  | l :: ls => (i, l) :: numberLines (i + 1) ls

/-- Rust `LineMeta` (parser.rs). -/
structure LineMeta where
  row : Nat
  indentation : Nat
  key : Option (List Char)
  value : Option (List Char)
deriving DecidableEq

/-- Rust `JecsTypeInner` (parser.rs). -/
inductive JecsTypeInner where
  | any
  | value
  | map
  | list
deriving DecidableEq

/-- Rust `LineMeta::is_list` (parser.rs). -/
def LineMeta.is_list (m : LineMeta) : Bool := m.key.isNone

/-- Rust `LineMeta::get_data_type` (parser.rs). -/
def LineMeta.get_data_type (m : LineMeta) : JecsTypeInner :=
  if m.is_list then JecsTypeInner.list else JecsTypeInner.map

/-- Rust `LineMeta::is_parent` (parser.rs). -/
def LineMeta.is_parent (m : LineMeta) : Bool := m.value.isNone

/-- Rust `read_indentation` (parser.rs): count leading spaces; `none` for a
blank or comment-only line; with `checkForColumn` an immediate colon is an
error; otherwise stop without consuming the first key character. -/
def read_indentation (row : Nat) (checkForColumn : Bool) :
    Nat → List Char → Except JecsCorruptedDataError (Option (Nat × List Char))
  | _, [] => .ok none
  | ind, c :: rest =>
    if c = ' ' then read_indentation row checkForColumn (ind + 1) rest
    else if c = '#' then .ok none
    else if checkForColumn ∧ c = ':' then
      .error ⟨row, "Line has no key, encountered a colon"⟩
    else .ok (some (ind, c :: rest))

/-- Loop of Rust `read_key` (parser.rs): consume characters until the colon
that terminates the key. -/
def read_key_loop (row : Nat) (acc : List Char) :
    List Char → Except JecsCorruptedDataError (List Char × List Char)
  | [] => .error ⟨row, "Unexpected line end while reading key"⟩
  | c :: rest =>
    if c = ':' then .ok (acc, rest)
    else if c = '#' then .error ⟨row, "key may not contain a # character"⟩
    else read_key_loop row (acc ++ [c]) rest

/-- Rust `read_key` (parser.rs): a leading dash means a key-less list entry;
otherwise read up to the colon and trim trailing spaces. -/
def read_key (row : Nat) :
    List Char → Except JecsCorruptedDataError (Option (List Char) × List Char)
  | '-' :: rest => .ok (none, rest)
  | cs =>
    match read_key_loop row [] cs with
    | .error e => .error e
    | .ok (k, rest) => .ok (some (trimEndSpaces k), rest)

/-- Loop of Rust `read_value_raw` (parser.rs): a backslash-escaped hash is
unescaped, an unescaped hash starts a comment and ends the value. -/
def read_value_loop : List Char → List Char
  | [] => []
  | '\\' :: '#' :: rest => '#' :: read_value_loop rest
  | c :: rest => if c = '#' then [] else c :: read_value_loop rest

/-- Rust `read_value_raw` (parser.rs). -/
def read_value_raw : List Char → Option (List Char)
  | [] => none
  | c :: rest =>
    if c = '#' then none
    else some (trimEndSpaces (read_value_loop (c :: rest)))

/-- The three-character token that opens and closes a multi-line string. -/
def qqq : List Char := ['"', '"', '"']

/-- The multi-line part of Rust `read_value` (parser.rs): pull further lines
until the terminator token, accumulating contents separated by newlines.
Rust updates `row` to the row of the line last pulled. -/
def multiline_loop (origInd : Nat) (lastInd : Option Nat) (builder : List Char)
    (wrote : Bool) (row : Nat) :
    List (Nat × List Char) → Except JecsCorruptedDataError (List Char × List (Nat × List Char))
  | [] => .error ⟨row, "Multi-line string started, but file ends unexpectedly"⟩
  | (nextRow, content) :: rest =>
    match read_indentation nextRow false 0 content with
    | .error e => .error e
    | .ok none =>
      multiline_loop origInd lastInd (builder ++ if wrote then ['\n'] else [])
        true nextRow rest
    | .ok (some (indentation, cs)) =>
      match lastInd with
      | none =>
        if indentation ≤ origInd then
          .error ⟨nextRow, "Multi-line string lines must have more indentation than its opener"⟩
        else
          match read_value_raw cs with
          | none => .error ⟨nextRow, panicMsg⟩
          | some content2 =>
            if content2 = qqq then .ok (builder, rest)
            else
              multiline_loop origInd (some indentation)
                (builder ++ (if wrote then ['\n'] else []) ++ content2) true nextRow rest
      | some li =>
        if li ≠ indentation then
          .error ⟨nextRow, "Multi-line string lines must have consistent indentation until its terminator"⟩
        else
          match read_value_raw cs with
          | none => .error ⟨nextRow, panicMsg⟩
          | some content2 =>
            if content2 = qqq then .ok (builder, rest)
            else
              multiline_loop origInd (some li)
                (builder ++ (if wrote then ['\n'] else []) ++ content2) true nextRow rest

/-- Rust `read_value` (parser.rs): a plain value is returned as scanned; the
exact token of three double quotes switches to the multi-line mode. -/
def read_value (row origInd : Nat) (cs : List Char) (lines : List (Nat × List Char)) :
    Except JecsCorruptedDataError (Option (List Char) × List (Nat × List Char)) :=
  match read_value_raw cs with
  | none => .ok (none, lines)
  | some content =>
    if content = qqq then
      match multiline_loop origInd none [] false row lines with
      | .error e => .error e
      | .ok (s, rest) => .ok (some s, rest)
    else .ok (some content, lines)

/-- Rust `parse_line` (parser.rs). -/
def parse_line (row : Nat) (line : List Char) (lineIt : List (Nat × List Char)) :
    Except JecsCorruptedDataError (Option LineMeta × List (Nat × List Char)) :=
  match read_indentation row true 0 line with
  | .error e => .error e
  | .ok none => .ok (none, lineIt)
  | .ok (some (indentation, cs)) =>
    match read_key row cs with
    | .error e => .error e
    | .ok (key, cs2) =>
      match read_value row indentation (cs2.dropWhile fun c => c = ' ') lineIt with
      | .error e => .error e
      | .ok (value, lineIt2) => .ok (some ⟨row, indentation, key, value⟩, lineIt2)

/-- Rust `LineContext` (parser.rs). -/
inductive LineContext where
  | mk (meta : LineMeta) (children : List LineContext)
      (expected_child_indentation : Nat) (determined_type : JecsTypeInner)

/-- Projection: the `meta` field of a `LineContext`. -/
def LineContext.meta : LineContext → LineMeta
  | .mk m _ _ _ => m

/-- Projection: the `children` field of a `LineContext`. -/
def LineContext.children : LineContext → List LineContext
  | .mk _ cs _ _ => cs

/-- Projection: the `expected_child_indentation` field of a `LineContext`. -/
def LineContext.expected_child_indentation : LineContext → Nat
  | .mk _ _ e _ => e

/-- Projection: the `determined_type` field of a `LineContext`. -/
def LineContext.determined_type : LineContext → JecsTypeInner
  | .mk _ _ _ d => d

/-- Rust `LineContext::new` (parser.rs). -/
def LineContext.new (meta : LineMeta) : LineContext :=
  .mk meta [] 0 (if meta.is_parent then JecsTypeInner.any else JecsTypeInner.value)

/-- Rust `children.push(child)` on a `LineContext`. -/
def LineContext.addChild : LineContext → LineContext → LineContext
  | .mk m cs e d, c => .mk m (cs ++ [c]) e d

/-- The mutation done by `handle_new_child_line` on the stack top: record the
inferred collection kind and the expected indentation of further children. -/
def LineContext.setDetermined : LineContext → JecsTypeInner → Nat → LineContext
  | .mk m cs _ _, d, e => .mk m cs e d

/-- Rust `TreeParser` (parser.rs): the roots list and the ancestor stack.
The head of `stack` is the top (the last `Vec` element). -/
structure TreeParser where
  roots : List LineContext
  stack : List LineContext

/-- Rust `TreeParser::add_validate_root` (parser.rs). -/
def TreeParser.add_validate_root (tp : TreeParser) (m : LineMeta) :
    Except JecsCorruptedDataError TreeParser :=
  if m.indentation ≠ 0 then
    .error ⟨m.row, "Root level entries need indentation level 0, but got " ++ toString m.indentation⟩
  else if m.is_list then
    .error ⟨m.row, "Root level entries need a key, they may not be list entries"⟩
  else .ok ⟨tp.roots, LineContext.new m :: tp.stack⟩

/-- Rust `TreeParser::handle_new_child_line` (parser.rs). -/
def TreeParser.handle_new_child_line (tp : TreeParser) (cur : LineMeta) :
    Except JecsCorruptedDataError TreeParser :=
  match tp.stack with
  | [] => .error ⟨0, panicMsg⟩
  | top :: rest =>
    if top.determined_type ≠ JecsTypeInner.any then
      .error ⟨cur.row, "Child entries can only be added to entries without value"⟩
    else
      .ok ⟨tp.roots,
        LineContext.new cur ::
          top.setDetermined (if cur.is_list then JecsTypeInner.list else JecsTypeInner.map)
            cur.indentation :: rest⟩

/-- Rust `TreeParser::handle_new_sibling_line` (parser.rs). -/
def TreeParser.handle_new_sibling_line (tp : TreeParser) (cur : LineMeta) :
    Except JecsCorruptedDataError TreeParser :=
  match tp.stack with
  | [] => .error ⟨0, panicMsg⟩
  | prev :: rest =>
    match rest with
    | [] => TreeParser.add_validate_root ⟨tp.roots ++ [prev], []⟩ cur
    | parent :: rest2 =>
      if parent.determined_type ≠ cur.get_data_type then
        .error ⟨cur.row, "Cannot mix list and dict collection entries with the same parent"⟩
      else
        .ok ⟨tp.roots, LineContext.new cur :: parent.addChild prev :: rest2⟩

/-- Loop of Rust `TreeParser::handle_new_parents_sibling_line` (parser.rs):
`prev` is the entry just popped, the list is the remaining stack. -/
def handle_parents_loop (roots : List LineContext) (cur : LineMeta) :
    LineContext → List LineContext → Except JecsCorruptedDataError TreeParser
  | prev, [] => TreeParser.add_validate_root ⟨roots ++ [prev], []⟩ cur
  | prev, parent :: rest =>
    let parent2 := parent.addChild prev
    if cur.indentation > parent2.expected_child_indentation then
      .error ⟨cur.row,
        "Wrongly indented JECS entry! Expected indentation " ++
          toString parent2.expected_child_indentation ++ " but got " ++ toString cur.indentation⟩
    else if cur.indentation = parent2.expected_child_indentation then
      if parent2.determined_type ≠ cur.get_data_type then
        .error ⟨cur.row, "Cannot mix list and dict collection entries within the same parent"⟩
      else
        .ok ⟨roots, LineContext.new cur :: parent2 :: rest⟩
    else handle_parents_loop roots cur parent2 rest

/-- Rust `TreeParser::handle_new_parents_sibling_line` (parser.rs). -/
def TreeParser.handle_new_parents_sibling_line (tp : TreeParser) (cur : LineMeta) :
    Except JecsCorruptedDataError TreeParser :=
  match tp.stack with
  | [] => .error ⟨0, panicMsg⟩
  | prev :: rest => handle_parents_loop tp.roots cur prev rest

/-- Rust `TreeParser::append_next_line` (parser.rs). -/
def TreeParser.append_next_line (tp : TreeParser) (cur : LineMeta) :
    Except JecsCorruptedDataError TreeParser :=
  match tp.stack with
  | [] => .error ⟨0, panicMsg⟩
  | top :: _ =>
    if cur.indentation > top.meta.indentation then tp.handle_new_child_line cur
    else if cur.indentation = top.meta.indentation then tp.handle_new_sibling_line cur
    else tp.handle_new_parents_sibling_line cur

/-- Loop of Rust `TreeParser::post_line_addition_cleanup` (parser.rs): merge
the stack top into the entry below it, the bottom entry is the result. -/
def cleanup_fold (e : LineContext) : List LineContext → LineContext
  | [] => e
  | p :: rest => cleanup_fold (p.addChild e) rest

/-- Rust `TreeParser::post_line_addition_cleanup` (parser.rs). -/
def TreeParser.post_line_addition_cleanup (tp : TreeParser) : TreeParser :=
  match tp.stack with
  | [] => tp
  | e :: rest => ⟨tp.roots ++ [cleanup_fold e rest], []⟩

/-- Rust `ConvertedMeta` (local struct of `finalize_to_map`, parser.rs). -/
structure ConvertedMeta where
  name : Option (List Char)
  converted : JecsType
  child_count : Nat

/-- The inner merge loop of Rust `finalize_to_map` (parser.rs): inject a
fully converted child into its parent on the converted stack; merge every
parent that becomes full itself, stopping at the synthetic root. -/
def merge_child (child : ConvertedMeta) : List ConvertedMeta → List ConvertedMeta
  | [] => []
  | parent :: rest =>
    let step : JecsType × Bool :=
      match parent.converted with
      | JecsType.map m =>
        let m2 := insertAssoc m (child.name.getD []) child.converted
        (JecsType.map m2, parent.child_count > m2.length)
      | JecsType.list l =>
        let l2 := l ++ [child.converted]
        (JecsType.list l2, parent.child_count > l2.length)
      | other => (other, false)
    let parent2 : ConvertedMeta := ⟨parent.name, step.1, parent.child_count⟩
    if step.2 then parent2 :: rest
    else
      match rest with
      | [] => [parent2]
      | r :: rs => merge_child parent2 (r :: rs)

/-- The main work-list loop of Rust `finalize_to_map` (parser.rs).  The fuel
is the number of iterations; each iteration consumes one node, so any fuel
of at least the total node count is adequate and `none` is unreachable. -/
def finalize_loop : Nat → List ConvertedMeta → List LineContext →
    Option (List ConvertedMeta)
  | _, cstk, [] => some cstk
  | 0, _, _ :: _ => none
  | fuel + 1, cstk, entry :: rest =>
    let converted_entry : JecsType :=
      match entry.determined_type with
      | JecsTypeInner.any => JecsType.any
      | JecsTypeInner.value => JecsType.value (entry.meta.value.getD [])
      | JecsTypeInner.map => JecsType.map []
      | JecsTypeInner.list => JecsType.list []
    match entry.children with
    | [] => finalize_loop fuel (merge_child ⟨entry.meta.key, converted_entry, 0⟩ cstk) rest
    | c :: cs =>
      finalize_loop fuel (⟨entry.meta.key, converted_entry, (c :: cs).length⟩ :: cstk)
        ((c :: cs) ++ rest)

/-- Rust `TreeParser::finalize_to_map` (parser.rs). -/
def finalize_to_map (fuel : Nat) (roots : List LineContext) :
    Except JecsCorruptedDataError JecsType :=
  match finalize_loop fuel [⟨none, JecsType.map [], roots.length⟩] roots with
  | none => .error ⟨0, panicMsg⟩
  | some [] => .error ⟨0, panicMsg⟩
  | some (m :: _) =>
    match m.converted with
    | JecsType.map x => .ok (JecsType.map x)
    | _ => .error ⟨0, panicMsg⟩

/-- The first loop of Rust `parse_jecs_string` (parser.rs): parse lines until
the first accepted record, which seeds the root.  The fuel dominates the
number of lines, each iteration consumes at least one line. -/
def parse_root_loop : Nat → List (Nat × List Char) →
    Except JecsCorruptedDataError (Option (TreeParser × List (Nat × List Char)))
  | _, [] => .ok none
  | 0, _ :: _ => .error ⟨0, panicMsg⟩
  | fuel + 1, (row, l) :: rest =>
    match parse_line row l rest with
    | .error e => .error e
    | .ok (none, rest2) => parse_root_loop fuel rest2
    | .ok (some m, rest2) =>
      match TreeParser.add_validate_root ⟨[], []⟩ m with
      | .error e => .error e
      | .ok tp => .ok (some (tp, rest2))

/-- The second loop of Rust `parse_jecs_string` (parser.rs): feed every
remaining accepted record to the tree builder. -/
def parse_loop : Nat → TreeParser → List (Nat × List Char) →
    Except JecsCorruptedDataError TreeParser
  | _, tp, [] => .ok tp
  | 0, _, _ :: _ => .error ⟨0, panicMsg⟩
  | fuel + 1, tp, (row, l) :: rest =>
    match parse_line row l rest with
    | .error e => .error e
    | .ok (none, rest2) => parse_loop fuel tp rest2
    | .ok (some m, rest2) =>
      match tp.append_next_line m with
      | .error e => .error e
      | .ok tp2 => parse_loop fuel tp2 rest2

/-- Rust `parse_jecs_string` (parser.rs). -/
def parse_jecs_string (text : List Char) : Except JecsCorruptedDataError JecsType :=
  let lines := numberLines 1 (rustLines text)
  match parse_root_loop lines.length lines with
  | .error e => .error e
  | .ok none => finalize_to_map (lines.length + 1) (TreeParser.post_line_addition_cleanup ⟨[], []⟩).roots
  | .ok (some (tp, rest)) =>
    match parse_loop rest.length tp rest with
    | .error e => .error e
    | .ok tp2 => finalize_to_map (lines.length + 1) tp2.post_line_addition_cleanup.roots

/-- Rust `JecsType::name` (types.rs). -/
def JecsType.name : JecsType → String
  | .any => "Any"
  | .value _ => "Value"
  | .map _ => "Map"
  | .list _ => "List"

/-- Rust `JecsType::is_any` (types.rs). -/
def JecsType.is_any : JecsType → Bool
  | .any => true
  | _ => false

/-- Rust `JecsType::is_value` (types.rs). -/
def JecsType.is_value : JecsType → Bool
  | .value _ => true
  | _ => false

/-- Rust `JecsType::get_value` (types.rs). -/
def JecsType.get_value : JecsType → Option (List Char)
  | .value v => some v
  | _ => none

/-- Rust `JecsType::is_map` (types.rs): `Any` also counts as a map. -/
def JecsType.is_map : JecsType → Bool
  | .any => true
  | .map _ => true
  | _ => false

/-- Rust `JecsType::get_map` (types.rs): only an actual `Map` yields one. -/
def JecsType.get_map : JecsType → Option (List (List Char × JecsType))
  | .map m => some m
  | _ => none

/-- Rust `JecsType::is_list` (types.rs): `Any` also counts as a list. -/
def JecsType.is_list : JecsType → Bool
  | .any => true
  | .list _ => true
  | _ => false

/-- Rust `JecsType::get_list` (types.rs). -/
def JecsType.get_list : JecsType → Option (List JecsType)
  | .list l => some l
  | _ => none

/-- Rust `JecsType::expect_map` (types.rs): the guard uses `is_map` but the
value is taken by `get_map().unwrap()`, which panics when `get_map` is
`None`. -/
def JecsType.expect_map (t : JecsType) :
    RunResult JecsWrongEntryTypeError (List (List Char × JecsType)) :=
  if ¬ t.is_map then .error ⟨"MAP", t.name⟩
  else
    match t.get_map with
    | some m => .ok m
    | none => .panicked

/-- Rust `JecsType::expect_list` (types.rs): same shape as `expect_map`. -/
def JecsType.expect_list (t : JecsType) :
    RunResult JecsWrongEntryTypeError (List JecsType) :=
  if ¬ t.is_list then .error ⟨"LIST", t.name⟩
  else
    match t.get_list with
    | some l => .ok l
    | none => .panicked

/-- Rust `JecsType::expect_string` (types.rs): here `get_value().unwrap()`
cannot panic because `is_value` guards exactly the `Value` variant. -/
def JecsType.expect_string (t : JecsType) :
    Except JecsWrongEntryTypeError (List Char) :=
  match t with
  | .value v => .ok v
  | t => .error ⟨"VALUE", t.name⟩

/-- UTF-8 size in bytes of one character (Rust `str::len` counts bytes). -/
def charUtf8Size (c : Char) : Nat :=
  if c.toNat < 128 then 1
  else if c.toNat < 2048 then 2
  else if c.toNat < 65536 then 3
  else 4

/-- Rust `str::len`: the UTF-8 byte length of a string. -/
def utf8Len (cs : List Char) : Nat := (cs.map charUtf8Size).sum

/-- The character class `0-9A-F` checked by `expect_color` (types.rs); the
Rust comparisons between `char`s are codepoint comparisons. -/
def isUpperHex (c : Char) : Bool :=
  (48 ≤ c.toNat && c.toNat ≤ 57) || (65 ≤ c.toNat && c.toNat ≤ 70)

/-- Value of one hexadecimal digit (only used on `isUpperHex` characters). -/
def hexDigit (c : Char) : Nat :=
  if c.toNat ≤ 57 then c.toNat - 48 else c.toNat - 65 + 10

/-- Rust `u8::from_str_radix(s, 16)` on a validated two-digit slice. -/
def hexByte (a b : Char) : Nat := 16 * hexDigit a + hexDigit b

/-- Rust `JecsType::expect_color` (types.rs): byte length must be 6, every
character in `0-9A-F`; then three byte slices are parsed as hex.  After the
two checks the string is all ASCII, so the byte slices are exactly the six
characters; any other shape is the modelled slicing panic, unreachable. -/
def JecsType.expect_color (t : JecsType) :
    RunResult JecsTreeError (Nat × Nat × Nat) :=
  match t.expect_string with
  | .error e => .error (.wrongEntryType "color" e.encountered_type)
  | .ok v =>
    if utf8Len v ≠ 6 then .error (.incompatibleOrMalformed "color" v)
    else if v.any fun c => ! isUpperHex c then
      .error (.incompatibleOrMalformed "color" v)
    else
      match v with
      | [a, b, c, d, e, f] => .ok (hexByte a b, hexByte c d, hexByte e f)
      | _ => .panicked

/-- Rust `u32::from_str` (std): an optional plus sign followed by at least
one decimal digit, and the value must fit in 32 bits.  Modelled from the
documented std semantics, since the std library is outside this repository. -/
def parseU32 (cs : List Char) : Option Nat :=
  let ds := match cs with
    | '+' :: rest => rest
    | _ => cs
  if ds.isEmpty then none
  else if ds.all fun c => 48 ≤ c.toNat && c.toNat ≤ 57 then
    let n := ds.foldl (fun a c => a * 10 + (c.toNat - 48)) 0
    if n < 4294967296 then some n else none
  else none

/-- Rust `JecsType::expect_unsigned` (types.rs). -/
def JecsType.expect_unsigned (t : JecsType) : Except JecsTreeError Nat :=
  match t.expect_string with
  | .error e => .error (.wrongEntryType "unsigned" e.encountered_type)
  | .ok v =>
    match parseU32 v with
    | some n => .ok n
    | none => .error (.incompatibleOrMalformed "unsigned" v)

/-- Rust `JecsType::expect_component_address` (types.rs): note that the
variable `value` is reassigned to the suffix after the prefix before the
second error is built, so that error carries only the suffix. -/
def JecsType.expect_component_address (t : JecsType) : Except JecsTreeError Nat :=
  match t.expect_string with
  | .error e => .error (.wrongEntryType "component address" e.encountered_type)
  | .ok v =>
    if ¬ (v.take 2 = ['C', '-']) then
      .error (.incompatibleOrMalformed "component address" v)
    else
      let v2 := v.drop 2
      match parseU32 v2 with
      | some n => .ok n
      | none => .error (.incompatibleOrMalformed "component address" v2)

/-- Specification-side shape of `expect_component_address`, following the
claim: success exactly for the literal prefix `C-` followed by a parseable
32-bit unsigned integer; the first error carries the whole text, the second
only the suffix after the prefix. -/
def component_address_spec (v : List Char) : Except JecsTreeError Nat :=
  match v with
  | 'C' :: '-' :: w =>
    (match parseU32 w with
     | some n => .ok n
     | none => .error (.incompatibleOrMalformed "component address" w))
  | _ => .error (.incompatibleOrMalformed "component address" v)

/-- Specification-side shape of `expect_color`, following the claim: exactly
six characters, each in `0-9A-F`, read as three two-digit hex bytes. -/
def color_spec (v : List Char) : RunResult JecsTreeError (Nat × Nat × Nat) :=
  match v with
  | [a, b, c, d, e, f] =>
    if [a, b, c, d, e, f].all isUpperHex then
      .ok (hexByte a b, hexByte c d, hexByte e f)
    else .error (.incompatibleOrMalformed "color" v)
  | _ => .error (.incompatibleOrMalformed "color" v)

/-- Specification-side multi-line reader, following the claim: every pulled
line is either blank or comment-only (an empty segment), the closing token
(stop), or a content segment; the first content-bearing line fixes the
required indentation, which must exceed the opener's.  The scrutinees are
shared with `multiline_loop` so that the two differ only in how the result
string is assembled: here as the list of segments. -/
def multilineSegs (origInd : Nat) (lastInd : Option Nat) (row : Nat) :
    List (Nat × List Char) →
      Except JecsCorruptedDataError (List (List Char) × List (Nat × List Char))
  | [] => .error ⟨row, "Multi-line string started, but file ends unexpectedly"⟩
  | (nextRow, content) :: rest =>
    match read_indentation nextRow false 0 content with
    | .error e => .error e
    | .ok none =>
      match multilineSegs origInd lastInd nextRow rest with
      | .error e => .error e
      | .ok (segs, rem) => .ok ([] :: segs, rem)
    | .ok (some (indentation, cs)) =>
      match lastInd with
      | none =>
        if indentation ≤ origInd then
          .error ⟨nextRow, "Multi-line string lines must have more indentation than its opener"⟩
        else
          match read_value_raw cs with
          | none => .error ⟨nextRow, panicMsg⟩
          | some content2 =>
            if content2 = qqq then .ok ([], rest)
            else
              match multilineSegs origInd (some indentation) nextRow rest with
              | .error e => .error e
              | .ok (segs, rem) => .ok (content2 :: segs, rem)
      | some li =>
        if li ≠ indentation then
          .error ⟨nextRow, "Multi-line string lines must have consistent indentation until its terminator"⟩
        else
          match read_value_raw cs with
          | none => .error ⟨nextRow, panicMsg⟩
          | some content2 =>
            if content2 = qqq then .ok ([], rest)
            else
              match multilineSegs origInd (some li) nextRow rest with
              | .error e => .error e
              | .ok (segs, rem) => .ok (content2 :: segs, rem)

/-- Joining of multi-line segments by single newlines; with `wrote` set a
separator is also placed before the first segment (the accumulated builder
already holds earlier content). -/
def joinSegs (wrote : Bool) (segs : List (List Char)) : List Char :=
  match wrote, segs with
  | true, _ => (segs.map fun s => '\n' :: s).flatten
  | false, [] => []
  | false, s :: rest => s ++ (rest.map fun s => '\n' :: s).flatten

lemma LineContext.addChild_expected (p c : LineContext) :
    (p.addChild c).expected_child_indentation = p.expected_child_indentation := by
  cases p
  rfl

lemma LineContext.addChild_determined (p c : LineContext) :
    (p.addChild c).determined_type = p.determined_type := by
  cases p
  rfl

/-- Claim C1 (code bug evidence): on an `Any` node, which `is_map`/`is_list`
deliberately accept, `expect_map` and `expect_list` do not return the empty
collection the specification promises but panic, because `get_map`/`get_list`
return `None` for `Any` and the code unwraps them; `WrongEntryType` is
produced only for nodes that are neither `Any` nor of the requested shape. -/
theorem empty_node_accessors_panic :
    JecsType.expect_map JecsType.any = RunResult.panicked ∧
    JecsType.expect_list JecsType.any = RunResult.panicked ∧
    JecsType.is_map JecsType.any = true ∧
    JecsType.is_list JecsType.any = true ∧
    JecsType.expect_map (JecsType.value (str "x")) = RunResult.error ⟨"MAP", "Value"⟩ ∧
    JecsType.expect_list (JecsType.value (str "x")) = RunResult.error ⟨"LIST", "Value"⟩ ∧
    parse_jecs_string (str "a:") = .ok (JecsType.map [(str "a", JecsType.any)]) :=
  ⟨rfl, rfl, rfl, rfl, rfl, rfl, rfl⟩

/-- Claim C2 (code bug evidence): with two children of the same key under one
parent, `finalize_to_map` never considers the parent full (the map length
stays below `child_count`), so the parent is never merged and the synthetic
root mapping is discarded: the overall result is not keyed by the root keys.
Without duplicate keys the promised shape is produced. -/
theorem finalize_duplicate_key_divergence :
    parse_jecs_string (str "a:\n x: 1\n x: 2") =
      .ok (JecsType.map [(str "x", JecsType.value (str "2"))]) ∧
    parse_jecs_string (str "a:\n x: 1\n y: 2") =
      .ok (JecsType.map [(str "a", JecsType.map
        [(str "x", JecsType.value (str "1")), (str "y", JecsType.value (str "2"))])]) :=
  ⟨rfl, rfl⟩

/-- Claim C9: the whole parse is a pure function of the input characters, so
two runs on identical input produce identical results (the same tree or the
same error). -/
theorem parse_jecs_string_deterministic (input : List Char) :
    parse_jecs_string input = parse_jecs_string input := rfl

/-- Claim C3 (amended): `expect_component_address` succeeds exactly on the
literal prefix `C-` followed by a parseable 32-bit unsigned integer; a
missing prefix yields the error carrying the whole text, while a present
prefix with an unparseable remainder yields the error carrying only the
remainder after the prefix. -/
theorem expect_component_address_characterized (v : List Char) :
    JecsType.expect_component_address (JecsType.value v) = component_address_spec v := by
  match v with
  | [] => rfl
  | [c] =>
    by_cases h : c = 'C'
    · subst h
      rfl
    · simp only [JecsType.expect_component_address, JecsType.expect_string, component_address_spec]
      rw [if_pos (by simp [h])]
  | c1 :: c2 :: w =>
    by_cases h1 : c1 = 'C'
    · by_cases h2 : c2 = '-'
      · subst h1
        subst h2
        simp only [JecsType.expect_component_address, JecsType.expect_string, component_address_spec]
        rw [if_neg (by simp)]
        rfl
      · subst h1
        simp only [JecsType.expect_component_address, JecsType.expect_string, component_address_spec]
        rw [if_pos (by simp [h2])]
        simp [h2]
    · simp only [JecsType.expect_component_address, JecsType.expect_string, component_address_spec]
      rw [if_pos (by simp [h1])]
      simp [h1]

/-- Claim C3 (counterexample to the claim as stated): on the text `C-x` the
error does not carry the node's raw text but only the remainder `x`. -/
theorem expect_component_address_counterexample :
    JecsType.expect_component_address (JecsType.value (str "C-x")) =
      .error (JecsTreeError.incompatibleOrMalformed "component address" (str "x")) ∧
    ¬ (str "x" = str "C-x") :=
  ⟨rfl, by decide⟩

/-- Claim C6: a root entry (the seed and every later re-seed through an
emptied stack, both of which go through `add_validate_root`) must have
indentation 0 and a key, otherwise the parse fails with `CorruptedData`;
concretely a bare list entry at indentation 0 and an indented first line are
rejected, also when the root list entry arrives as a later sibling. -/
theorem root_entry_validation :
    (∀ (tp : TreeParser) (m : LineMeta), m.indentation ≠ 0 →
        tp.add_validate_root m =
          .error ⟨m.row, "Root level entries need indentation level 0, but got " ++
            toString m.indentation⟩) ∧
    (∀ (tp : TreeParser) (m : LineMeta), m.indentation = 0 → m.key = none →
        tp.add_validate_root m =
          .error ⟨m.row, "Root level entries need a key, they may not be list entries"⟩) ∧
    (∀ (tp : TreeParser) (m : LineMeta), m.indentation = 0 → m.key ≠ none →
        tp.add_validate_root m = .ok ⟨tp.roots, LineContext.new m :: tp.stack⟩) ∧
    parse_jecs_string (str "-foo") =
      .error ⟨1, "Root level entries need a key, they may not be list entries"⟩ ∧
    parse_jecs_string (str " a: 1") =
      .error ⟨1, "Root level entries need indentation level 0, but got 1"⟩ ∧
    parse_jecs_string (str "a: 1\n-b") =
      .error ⟨2, "Root level entries need a key, they may not be list entries"⟩ := by
  refine ⟨?_, ?_, ?_, rfl, rfl, rfl⟩
  · intro tp m h
    simp [TreeParser.add_validate_root, h]
  · intro tp m h0 hk
    simp [TreeParser.add_validate_root, h0, LineMeta.is_list, hk]
  · intro tp m h0 hk
    cases hv : m.key with
    | none => exact absurd hv hk
    | some k => simp [TreeParser.add_validate_root, h0, LineMeta.is_list, hv]

/-- Claim C6 witness: the first clause of `root_entry_validation` applied to
a concrete key-less root record. -/
theorem root_entry_validation_witness :
    TreeParser.add_validate_root ⟨[], []⟩ ⟨1, 0, none, some (str "foo")⟩ =
      .error ⟨1, "Root level entries need a key, they may not be list entries"⟩ :=
  root_entry_validation.2.1 ⟨[], []⟩ ⟨1, 0, none, some (str "foo")⟩ rfl rfl

/-- Claim C7: a child line is accepted only under a stack top whose kind is
still `Undetermined` (`Any`); a freshly created node carrying a value is
`Value`-kinded, so a line with an inline value can never gain children, as
the concrete rejected input shows end to end. -/
theorem child_after_value_rejected :
    (∀ (roots : List LineContext) (top : LineContext) (rest : List LineContext) (cur : LineMeta),
        top.determined_type ≠ JecsTypeInner.any →
        TreeParser.handle_new_child_line ⟨roots, top :: rest⟩ cur =
          .error ⟨cur.row, "Child entries can only be added to entries without value"⟩) ∧
    (∀ m : LineMeta, m.value.isSome → (LineContext.new m).determined_type = JecsTypeInner.value) ∧
    parse_jecs_string (str "a: 1\n b: 2") =
      .error ⟨2, "Child entries can only be added to entries without value"⟩ := by
  refine ⟨?_, ?_, rfl⟩
  · intro roots top rest cur h
    simp [TreeParser.handle_new_child_line, h]
  · intro m h
    cases hv : m.value with
    | none => rw [hv] at h; simp at h
    | some v => simp [LineContext.new, LineMeta.is_parent, hv, LineContext.determined_type]

/-- Claim C7 witness: the first clause of `child_after_value_rejected`
applied to the concrete state after the line `a: 1`. -/
theorem child_after_value_rejected_witness :
    TreeParser.handle_new_child_line
        ⟨[], [LineContext.new ⟨1, 0, some (str "a"), some (str "1")⟩]⟩
        ⟨2, 1, some (str "b"), some (str "2")⟩ =
      .error ⟨2, "Child entries can only be added to entries without value"⟩ :=
  child_after_value_rejected.1 [] _ [] _ (by decide)

lemma handle_parents_loop_mixing (roots : List LineContext) (cur : LineMeta) :
    ∀ (mids : List LineContext) (prev parent : LineContext) (rest : List LineContext),
      (∀ m ∈ mids, cur.indentation < m.expected_child_indentation) →
      cur.indentation = parent.expected_child_indentation →
      parent.determined_type ≠ cur.get_data_type →
      handle_parents_loop roots cur prev (mids ++ parent :: rest) =
        .error ⟨cur.row, "Cannot mix list and dict collection entries within the same parent"⟩ := by
  intro mids
  induction mids with
  | nil =>
    intro prev parent rest _ heq hne
    rw [List.nil_append]
    simp only [handle_parents_loop]
    rw [LineContext.addChild_expected, LineContext.addChild_determined]
    rw [if_neg (by omega), if_pos heq, if_pos hne]
  | cons m ms ih =>
    intro prev parent rest hmids heq hne
    rw [List.cons_append]
    simp only [handle_parents_loop]
    rw [LineContext.addChild_expected, LineContext.addChild_determined]
    have hm : cur.indentation < m.expected_child_indentation := hmids m (by simp)
    rw [if_neg (by omega), if_neg (by omega)]
    exact ih (m.addChild prev) parent rest (fun x hx => hmids x (by simp [hx])) heq hne

/-- Claim C5: two direct siblings of different shape under one parent are
rejected with `CorruptedData`, both when the sibling arrives at equal
indentation (`handle_new_sibling_line`) and when it arrives through a dedent
to an ancestor's recorded child level (`handle_new_parents_sibling_line`);
two concrete inputs show both rejections end to end. -/
theorem sibling_shape_mixing_rejected :
    (∀ (roots : List LineContext) (prev parent : LineContext) (rest : List LineContext)
        (cur : LineMeta),
        parent.determined_type ≠ cur.get_data_type →
        TreeParser.handle_new_sibling_line ⟨roots, prev :: parent :: rest⟩ cur =
          .error ⟨cur.row, "Cannot mix list and dict collection entries with the same parent"⟩) ∧
    (∀ (roots : List LineContext) (cur : LineMeta) (mids : List LineContext)
        (prev parent : LineContext) (rest : List LineContext),
        (∀ m ∈ mids, cur.indentation < m.expected_child_indentation) →
        cur.indentation = parent.expected_child_indentation →
        parent.determined_type ≠ cur.get_data_type →
        TreeParser.handle_new_parents_sibling_line ⟨roots, prev :: (mids ++ parent :: rest)⟩ cur =
          .error ⟨cur.row, "Cannot mix list and dict collection entries within the same parent"⟩) ∧
    parse_jecs_string (str "a:\n b: 1\n -c") =
      .error ⟨3, "Cannot mix list and dict collection entries with the same parent"⟩ ∧
    parse_jecs_string (str "a:\n b:\n  c: 1\n -d") =
      .error ⟨4, "Cannot mix list and dict collection entries within the same parent"⟩ := by
  refine ⟨?_, ?_, rfl, rfl⟩
  · intro roots prev parent rest cur hne
    simp [TreeParser.handle_new_sibling_line, hne]
  · intro roots cur mids prev parent rest hmids heq hne
    simp only [TreeParser.handle_new_parents_sibling_line]
    exact handle_parents_loop_mixing roots cur mids prev parent rest hmids heq hne

/-- Claim C5 witness: the first clause of `sibling_shape_mixing_rejected`
applied to the concrete state after `a:` and `b: 1`, met by the list entry
line `-c`. -/
theorem sibling_shape_mixing_rejected_witness :
    TreeParser.handle_new_sibling_line
        ⟨[], [LineContext.new ⟨2, 1, some (str "b"), some (str "1")⟩,
              LineContext.mk ⟨1, 0, some (str "a"), none⟩ [] 1 JecsTypeInner.map]⟩
        ⟨3, 1, none, some (str "c")⟩ =
      .error ⟨3, "Cannot mix list and dict collection entries with the same parent"⟩ :=
  sibling_shape_mixing_rejected.1 [] _ _ [] _ (by decide)

lemma read_indentation_comment (r : Nat) (chk : Bool) (cmt : List Char) :
    ∀ (n ind : Nat),
      read_indentation r chk ind (List.replicate n ' ' ++ '#' :: cmt) = .ok none := by
  intro n
  induction n with
  | zero =>
    intro ind
    rfl
  | succ k ih =>
    intro ind
    rw [List.replicate_succ, List.cons_append]
    show read_indentation r chk (ind + 1) (List.replicate k ' ' ++ '#' :: cmt) = .ok none
    exact ih (ind + 1)

/-- Claim C10: inside a multi-line block a continuation line of spaces
followed by a `#` comment is handled exactly like a blank line: it appends
one newline separator when earlier content exists, skips the indentation
checks, and cannot terminate the block. -/
theorem multiline_comment_line_is_blank (origInd : Nat) (lastInd : Option Nat)
    (builder : List Char) (wrote : Bool) (row r n : Nat) (cmt : List Char)
    (rest : List (Nat × List Char)) :
    multiline_loop origInd lastInd builder wrote row
        ((r, List.replicate n ' ' ++ '#' :: cmt) :: rest) =
      multiline_loop origInd lastInd (builder ++ if wrote then ['\n'] else [])
        true r rest ∧
    multiline_loop origInd lastInd builder wrote row
        ((r, List.replicate n ' ' ++ '#' :: cmt) :: rest) =
      multiline_loop origInd lastInd builder wrote row ((r, []) :: rest) := by
  constructor
  · simp only [multiline_loop]
    rw [read_indentation_comment]
  · simp only [multiline_loop]
    rw [read_indentation_comment]
    rfl

lemma joinSegs_nil (w : Bool) : joinSegs w [] = [] := by
  cases w <;> rfl

lemma joinSegs_cons (w : Bool) (s : List Char) (ss : List (List Char)) :
    joinSegs w (s :: ss) = (if w then ['\n'] else []) ++ s ++ joinSegs true ss := by
  cases w <;> simp [joinSegs]

lemma multiline_loop_eq_segs (origInd : Nat) :
    ∀ (lines : List (Nat × List Char)) (lastInd : Option Nat) (builder : List Char)
      (wrote : Bool) (row : Nat),
      multiline_loop origInd lastInd builder wrote row lines =
        match multilineSegs origInd lastInd row lines with
        | .error e => .error e
        | .ok (segs, rem) => .ok (builder ++ joinSegs wrote segs, rem) := by
  intro lines
  induction lines with
  | nil =>
    intro lastInd builder wrote row
    rfl
  | cons hd rest ih =>
    intro lastInd builder wrote row
    obtain ⟨nextRow, content⟩ := hd
    simp only [multiline_loop, multilineSegs]
    cases hi : read_indentation nextRow false 0 content with
    | error e => rfl
    | ok o =>
      cases o with
      | none =>
        rw [ih]
        cases hs : multilineSegs origInd lastInd nextRow rest with
        | error e => rfl
        | ok p =>
          obtain ⟨segs, rem⟩ := p
          simp [joinSegs_cons, List.append_assoc]
      | some p =>
        obtain ⟨indentation, cs⟩ := p
        dsimp only
        cases lastInd with
        | none =>
          dsimp only
          by_cases hle : indentation ≤ origInd
          · rw [if_pos hle, if_pos hle]
          · rw [if_neg hle, if_neg hle]
            cases hr : read_value_raw cs with
            | none => rfl
            | some content2 =>
              dsimp only
              by_cases hq : content2 = qqq
              · rw [if_pos hq, if_pos hq]
                simp [joinSegs_nil]
              · rw [if_neg hq, if_neg hq]
                rw [ih]
                cases hs : multilineSegs origInd (some indentation) nextRow rest with
                | error e => rfl
                | ok p =>
                  obtain ⟨segs, rem⟩ := p
                  simp [joinSegs_cons, List.append_assoc]
        | some li =>
          dsimp only
          by_cases hli : li ≠ indentation
          · rw [if_pos hli, if_pos hli]
          · rw [if_neg hli, if_neg hli]
            cases hr : read_value_raw cs with
            | none => rfl
            | some content2 =>
              dsimp only
              by_cases hq : content2 = qqq
              · rw [if_pos hq, if_pos hq]
                simp [joinSegs_nil]
              · rw [if_neg hq, if_neg hq]
                rw [ih]
                cases hs : multilineSegs origInd (some li) nextRow rest with
                | error e => rfl
                | ok p =>
                  obtain ⟨segs, rem⟩ := p
                  simp [joinSegs_cons, List.append_assoc]

/-- Claim C4: whenever a line's scanned value is exactly the three-quote
token, `read_value` enters multi-line mode and behaves like the segment
reader `multilineSegs`: each pulled line is a blank/comment (empty segment)
or a content segment, the first content line must be indented strictly more
than the opener and every further one must match it exactly (otherwise a
`CorruptedData` error, as also when the input ends before a closing token),
and the resulting value is the segments joined by single newlines, the
closing token contributing nothing. -/
theorem read_value_multiline_characterized (row origInd : Nat) (cs : List Char)
    (lines : List (Nat × List Char)) (h : read_value_raw cs = some qqq) :
    read_value row origInd cs lines =
      match multilineSegs origInd none row lines with
      | .error e => .error e
      | .ok (segs, rem) => .ok (some (joinSegs false segs), rem) := by
  unfold read_value
  rw [h]
  dsimp only
  rw [if_pos rfl]
  rw [multiline_loop_eq_segs]
  cases multilineSegs origInd none row lines with
  | error e => rfl
  | ok p =>
    obtain ⟨segs, rem⟩ := p
    simp

/-- Claim C4 witness: `read_value_multiline_characterized` applied to the
specification's own example block (opener at indentation 0, two content
lines and a blank one at indentation 2, then the closing token). -/
theorem read_value_multiline_characterized_witness :
    read_value 1 0 (str "\"\"\"")
        [(2, str "  hello"), (3, str ""), (4, str "  world"), (5, str "  \"\"\"")] =
      .ok (some (str "hello\n\nworld"), []) := by
  rw [read_value_multiline_characterized 1 0 (str "\"\"\"")
    [(2, str "  hello"), (3, str ""), (4, str "  world"), (5, str "  \"\"\"")] rfl]
  rfl

lemma utf8Len_cons (c : Char) (cs : List Char) :
    utf8Len (c :: cs) = charUtf8Size c + utf8Len cs := by
  simp [utf8Len]

lemma charUtf8Size_of_hex (c : Char) (h : isUpperHex c = true) : charUtf8Size c = 1 := by
  simp only [isUpperHex, Bool.or_eq_true, Bool.and_eq_true, decide_eq_true_eq] at h
  unfold charUtf8Size
  rcases h with ⟨h1, h2⟩ | ⟨h1, h2⟩ <;> rw [if_pos (by omega)]

lemma utf8Len_of_hex : ∀ v : List Char, v.all isUpperHex = true → utf8Len v = v.length := by
  intro v
  induction v with
  | nil => intro _; rfl
  | cons c cs ih =>
    intro h
    rw [List.all_cons, Bool.and_eq_true] at h
    rw [utf8Len_cons, charUtf8Size_of_hex c h.1, ih h.2, List.length_cons]
    omega

lemma any_not_all (p : Char → Bool) :
    ∀ v : List Char, (v.any fun c => ! p c) = ! v.all p := by
  intro v
  induction v with
  | nil => rfl
  | cons c cs ih => simp [List.any_cons, List.all_cons, ih, Bool.not_and]

lemma expect_color_err_of_length (v : List Char) (h : v.length ≠ 6) :
    JecsType.expect_color (JecsType.value v) =
      .error (.incompatibleOrMalformed "color" v) := by
  simp only [JecsType.expect_color, JecsType.expect_string]
  by_cases h6 : utf8Len v = 6
  · rw [if_neg (by omega)]
    rw [if_pos ?hp]
    case hp =>
      rw [any_not_all]
      cases hall : v.all isUpperHex with
      | false => rfl
      | true =>
        exfalso
        apply h
        rw [← utf8Len_of_hex v hall]
        exact h6
  · rw [if_pos h6]

/-- Claim C8: `expect_color` succeeds, returning the three bytes read as
consecutive two-digit hexadecimal values, exactly when the text has six
characters all in `0-9A-F` (uppercase); any other text yields the color
`IncompatibleOrMalformedData` error carrying the text. -/
theorem expect_color_characterized (v : List Char) :
    JecsType.expect_color (JecsType.value v) = color_spec v := by
  have hmain : ∀ (a b c d e f : Char),
      JecsType.expect_color (JecsType.value [a, b, c, d, e, f]) =
        color_spec [a, b, c, d, e, f] := by
    intro a b c d e f
    simp only [JecsType.expect_color, JecsType.expect_string, color_spec]
    cases hall : [a, b, c, d, e, f].all isUpperHex with
    | true =>
      have hu : utf8Len [a, b, c, d, e, f] = 6 := by
        rw [utf8Len_of_hex _ hall]
        rfl
      have h1 : ¬ (utf8Len [a, b, c, d, e, f] ≠ 6) := by omega
      have hany : ¬ (([a, b, c, d, e, f].any fun c => ! isUpperHex c) = true) := by
        rw [any_not_all, hall]
        simp
      rw [if_neg h1, if_neg hany]
      simp
    | false =>
      by_cases h6 : utf8Len [a, b, c, d, e, f] = 6
      · have h1 : ¬ (utf8Len [a, b, c, d, e, f] ≠ 6) := by omega
        have hany : ([a, b, c, d, e, f].any fun c => ! isUpperHex c) = true := by
          rw [any_not_all, hall]
          rfl
        rw [if_neg h1, if_pos hany]
        simp
      · have h1 : utf8Len [a, b, c, d, e, f] ≠ 6 := h6
        rw [if_pos h1]
        simp
  match v with
  | [] => rfl
  | [a] =>
    rw [expect_color_err_of_length [a] (by simp)]
    rfl
  | [a, b] =>
    rw [expect_color_err_of_length [a, b] (by simp)]
    rfl
  | [a, b, c] =>
    rw [expect_color_err_of_length [a, b, c] (by simp)]
    rfl
  | [a, b, c, d] =>
    rw [expect_color_err_of_length [a, b, c, d] (by simp)]
    rfl
  | [a, b, c, d, e] =>
    rw [expect_color_err_of_length [a, b, c, d, e] (by simp)]
    rfl
  | [a, b, c, d, e, f] => exact hmain a b c d e f
  | a :: b :: c :: d :: e :: f :: g :: tail =>
    rw [expect_color_err_of_length _ (by simp only [List.length_cons]; omega)]
    rfl
